import Mathlib

/-!
Shallow embedding of the per-room session coordinator of the canvas
repository, translated from src/worker/TldrawDurableObject.ts, together
with proofs of the specified properties.

Modelling conventions:
- A snapshot body is a list of record ids (the engine content is opaque
  to the coordinator, so records are modelled as natural numbers).
- Stored blobs are modelled at the JSON-value level: a blob is either a
  parseable JSON document holding a room snapshot, or corrupt bytes.
  JSON.stringify corresponds to Blob.json and a failing .json() call
  corresponds to Blob.corrupt.
- Promises: the JavaScript event loop runs each synchronous section
  atomically.  The body of getRoom up to and including the r2.get call
  runs synchronously before any other task can interleave, so one call
  to getRoom is a single atomic step on the coordinator state.  The
  memoized roomPromise is an Option of an Except value: some (ok room)
  is a resolved promise, some (error e) a rejected (memoized-failure)
  promise, none the null field.
- JavaScript falsiness of a string-or-undefined value: undefined and
  the empty string are falsy.
-/

/-- Room snapshot content: the list of records held by the engine. -/
abbrev RoomSnapshot := List Nat

/-- A stored or transmitted body at the JSON level: either a document
that parses to a snapshot, or malformed bytes on which .json() throws. -/
inductive Blob where
  | json (snapshot : RoomSnapshot)
  | corrupt
deriving DecidableEq, Repr

/-- Association-list lookup, modelling keyed storage reads. -/
def getKey {α : Type} : List (String × α) → String → Option α
  | [], _ => none
  | (k, v) :: rest, key => if k = key then some v else getKey rest key

/-- Association-list update, modelling keyed storage writes
(full replace of the value at the key). -/
def putKey {α : Type} : List (String × α) → String → α → List (String × α)
  | [], key, v => [(key, v)]
  | (k, w) :: rest, key, v =>
      if k = key then (key, v) :: rest else (k, w) :: putKey rest key v

/-- JavaScript falsiness of request.query.sessionId and of the roomId
field: undefined or the empty string. -/
def optStrFalsy : Option String → Bool
  | none => true
  | some s => s == ""

/-- In-memory room engine, the TLSocketRoom instance constructed in
getRoom.  uid identifies the concrete instance (creation order), docs is
the current full state, sessions the attached session ids. -/
structure TLSocketRoom where
  uid : Nat
  initialSnapshot : Option RoomSnapshot
  docs : List Nat
  sessions : List String
deriving DecidableEq, Repr

/-- The full serialized state of the engine, as returned by
getCurrentSnapshot in the source. -/
def TLSocketRoom.getCurrentSnapshot (room : TLSocketRoom) : RoomSnapshot :=
  room.docs

/-- Registration of a session with the engine, as performed by
handleSocketConnect in the source. -/
def TLSocketRoom.handleSocketConnect (room : TLSocketRoom) (sessionId : String) :
    TLSocketRoom :=
  { room with sessions := room.sessions ++ [sessionId] }

instance {ε α : Type} [DecidableEq ε] [DecidableEq α] : DecidableEq (Except ε α) :=
  fun x y =>
    match x, y with
    | Except.ok a, Except.ok b =>
        if h : a = b then isTrue (by rw [h]) else isFalse (by simp [h])
    | Except.error a, Except.error b =>
        if h : a = b then isTrue (by rw [h]) else isFalse (by simp [h])
    | Except.ok _, Except.error _ => isFalse (by simp)
    | Except.error _, Except.ok _ => isFalse (by simp)

/-- Coordinator instance state together with its external collaborators:
roomId, roomPromise and storage are the durable-object fields, bucket is
the R2 SnapshotStore, r2GetCount counts SnapshotStore reads, nextUid
numbers engine constructions, pairsMade counts WebSocketPair
constructions, rejectedRuns counts persistence-run promises that
rejected with no handler, log is the console output. -/
structure World where
  roomId : Option String
  roomPromise : Option (Except String TLSocketRoom)
  storage : List (String × String)
  bucket : List (String × Blob)
  r2GetCount : Nat
  nextUid : Nat
  pairsMade : Nat
  rejectedRuns : Nat
  log : List String
deriving DecidableEq, Repr

/-- HTTP responses produced by the router. -/
inductive Response where
  | upgraded (pairId : Nat)
  | httpError (status : Nat) (msg : String)
  | plain (status : Nat) (body : String)
deriving DecidableEq, Repr

/-- The SnapshotStore key for a room, rooms/ followed by the room id. -/
def roomKey (roomId : String) : String := "rooms/" ++ roomId

/-- Hydration body from getRoom: one r2.get for the room key; an absent
object yields an engine with no initial snapshot, a parseable object
yields an engine initialized from its content, a corrupt object rejects
the hydration promise. -/
def hydrate (w : World) (rid : String) : Except String TLSocketRoom :=
  match getKey w.bucket (roomKey rid) with
  | none =>
      Except.ok { uid := w.nextUid, initialSnapshot := none, docs := [], sessions := [] }
  | some (Blob.json s) =>
      Except.ok { uid := w.nextUid, initialSnapshot := some s, docs := s, sessions := [] }
  | some Blob.corrupt => Except.error "invalid json"

/-- The getRoom method: throws when roomId is falsy, otherwise returns
the memoized roomPromise, creating it (and issuing the single
SnapshotStore read) when it is still null. -/
def getRoom (w : World) : World × Except String TLSocketRoom :=
  match w.roomId with
  | none => (w, Except.error "Missing roomId")
  | some rid =>
      if rid = "" then (w, Except.error "Missing roomId")
      else
        match w.roomPromise with
        | some res => (w, res)
        | none =>
            let res := hydrate w rid
            ({ w with
                roomPromise := some res
                r2GetCount := w.r2GetCount + 1
                nextUid := w.nextUid + 1 }, res)

/-- The handleConnect method: a falsy sessionId is rejected with
400 Missing sessionId before any socket pair is created; otherwise a
WebSocketPair is made, the room promise is awaited and the session is
registered with the engine, answering 101 with the client socket.  A
rejected room promise propagates to the router catch, which logs and
converts it to an error response. -/
def handleConnect (w : World) (sessionId : Option String) : World × Response :=
  if optStrFalsy sessionId then (w, Response.httpError 400 "Missing sessionId")
  else
    let pairId := w.pairsMade
    let w1 := { w with pairsMade := w.pairsMade + 1 }
    match getRoom w1 with
    | (w2, Except.ok room) =>
        let room2 := room.handleSocketConnect (sessionId.getD "")
        ({ w2 with roomPromise := some (Except.ok room2) }, Response.upgraded pairId)
    | (w2, Except.error e) =>
        ({ w2 with log := w2.log ++ ["Router error: " ++ e] },
          Response.httpError 500 e)

/-- The GET /api/connect/:roomId route: when the in-memory roomId is
falsy the candidate from the path is persisted to durable local storage
and set in memory (inside blockConcurrencyWhile, hence atomically), and
then handleConnect runs. -/
def connectRoute (w : World) (candidate : String) (sessionId : Option String) :
    World × Response :=
  let w1 :=
    if optStrFalsy w.roomId then
      { w with
          storage := putKey w.storage "roomId" candidate
          roomId := some candidate }
    else w
  handleConnect w1 sessionId

/-- Payload shape of the error-reporting endpoint. -/
structure ErrorPayload where
  error : String
  stack : String
  context : String
  timestamp : String
  userAgent : String
  url : String
deriving DecidableEq, Repr

/-- Request body of POST /api/log-error: parseable JSON carrying the
payload, or malformed bytes on which request.json() throws. -/
inductive ReqBody where
  | json (p : ErrorPayload)
  | malformed
deriving DecidableEq, Repr

/-- The POST /api/log-error route: a parseable body is logged and
answered 200 OK; a body on which request.json() throws is caught,
logged, and answered 500 Error. -/
def logErrorRoute (w : World) (body : ReqBody) : World × Response :=
  match body with
  | ReqBody.json p =>
      ({ w with log := w.log ++ ["Client error logged: " ++ p.error] },
        Response.plain 200 "OK")
  | ReqBody.malformed =>
      ({ w with log := w.log ++ ["Failed to log client error"] },
        Response.plain 500 "Error")

/-- Body of one throttled persistence run (schedulePersistToR2): return
immediately when roomPromise is null or roomId is falsy; otherwise await
the memoized room, serialize its full current state and put it to the
SnapshotStore under the room key.  putOk says whether the SnapshotStore
write succeeds.  A rejected await or a failed put rejects the run
promise, which no code in the source awaits; the hosting runtime records
the unhandled rejection (modelled by rejectedRuns). -/
def persistToR2Body (w : World) (putOk : Bool) : World :=
  if w.roomPromise.isNone ∨ optStrFalsy w.roomId then w
  else
    match getRoom w with
    | (w2, Except.ok room) =>
        if putOk then
          { w2 with
              bucket := putKey w2.bucket (roomKey (w2.roomId.getD ""))
                (Blob.json room.getCurrentSnapshot) }
        else { w2 with rejectedRuns := w2.rejectedRuns + 1 }
    | (w2, Except.error _) => { w2 with rejectedRuns := w2.rejectedRuns + 1 }

/-- Iterated getRoom calls: n successive callers on the same instance,
returning the final state and every result a caller received. -/
def getRoomN : Nat → World → World × List (Except String TLSocketRoom)
  | 0, w => (w, [])
  | n + 1, w =>
      let p := getRoom w
      let q := getRoomN n p.1
      (q.1, p.2 :: q.2)

/-- Modelled from the spec: the throttling primitive wrapping the
persistence run is lodash.throttle with interval 10 seconds, whose
implementation lives outside this repository.  Sections 4.4 and 9 of the
spec prescribe its semantics: leading-and-trailing coalescing, a dirty
flag plus a single window per room.  The state holds the end of the
currently open throttle window (none when idle), the coalesced dirty
flag, the current engine content, and the writes performed so far as
pairs of run time and serialized full state. -/
structure ThrottleState where
  windowEnd : Option Nat
  pending : Bool
  docs : List Nat
  writes : List (Nat × List Nat)
deriving DecidableEq, Repr

/-- Modelled from the spec: window bookkeeping at time t.  A trailing
run fires at the end of a window that has expired with the dirty flag
set, serializing the state accumulated so far and opening the next
window; an expired clean window simply closes. -/
def flushTo (T t : Nat) (st : ThrottleState) : ThrottleState :=
  match st.windowEnd with
  | none => st
  | some e =>
      if e ≤ t then
        if st.pending then
          let st2 : ThrottleState :=
            { st with
                writes := st.writes ++ [(e, st.docs)]
                windowEnd := some (e + T)
                pending := false }
          if e + T ≤ t then { st2 with windowEnd := none } else st2
        else { st with windowEnd := none }
      else st

/-- Modelled from the spec: one accepted mutation m at time t followed
by its synchronous dirty signal.  After window bookkeeping, the mutation
is applied; a dirty signal in an idle period runs the write-back at once
(leading edge) and opens a window, while a dirty signal inside an open
window only sets the coalesced dirty flag. -/
def onDirty (T : Nat) (st : ThrottleState) (t m : Nat) : ThrottleState :=
  let st1 := flushTo T t st
  let st2 := { st1 with docs := st1.docs ++ [m] }
  match st2.windowEnd with
  | none =>
      { st2 with
          writes := st2.writes ++ [(t, st2.docs)]
          windowEnd := some (t + T) }
  | some _ => { st2 with pending := true }

/-- Modelled from the spec: after the burst ends, time passes beyond the
open window, so a set dirty flag yields one final trailing run. -/
def finishThrottle (st : ThrottleState) : ThrottleState :=
  match st.windowEnd with
  | none => st
  | some e =>
      if st.pending then
        { st with
            writes := st.writes ++ [(e, st.docs)]
            windowEnd := none
            pending := false }
      else { st with windowEnd := none }

/-- The idle scheduler state with an empty engine. -/
def throttleInit : ThrottleState :=
  { windowEnd := none, pending := false, docs := [], writes := [] }

/-- The persistence schedule produced by a timed trace of mutations:
each event is a pair of arrival time and mutation, processed in order,
with the trailing run fired after the trace ends. -/
def runThrottle (T : Nat) (events : List (Nat × Nat)) : ThrottleState :=
  finishThrottle (events.foldl (fun st ev => onDirty T st ev.1 ev.2) throttleInit)

/-- Scheduler invariant at time now after k dirty signals: write times
climb by at least T, the number of runs is bounded by the number of
signals (coalescing), an idle scheduler saw its window expire, an open
window ends exactly T after the latest run, and whenever the dirty flag
is clear the latest run serialized the current full state. -/
structure ThrInv (T now k : Nat) (st : ThrottleState) : Prop where
  gaps : List.Chain' (fun a b : Nat × List Nat => a.1 + T ≤ b.1) st.writes
  count : st.writes.length + (if st.pending then 1 else 0) ≤ k
  idleGap : st.windowEnd = none →
    st.writes = [] ∨ ∃ x, st.writes.getLast? = some x ∧ x.1 + T ≤ now
  winOpen : ∀ e, st.windowEnd = some e →
    now < e ∧ ∃ x, st.writes.getLast? = some x ∧ e = x.1 + T
  cleanLast : st.pending = false →
    (st.writes = [] ∧ st.docs = []) ∨
      ∃ x, st.writes.getLast? = some x ∧ x.2 = st.docs
  pendOpen : st.pending = true → st.windowEnd.isSome

/-- A fresh unbound coordinator instance with empty collaborators. -/
def wUnbound : World :=
  { roomId := none, roomPromise := none, storage := [], bucket := [],
    r2GetCount := 0, nextUid := 0, pairsMade := 0, rejectedRuns := 0, log := [] }

/-- An instance bound to room alpha, not yet hydrated, empty bucket. -/
def wBound : World :=
  { wUnbound with roomId := some "alpha", storage := [("roomId", "alpha")] }

/-- Same instance with a stored snapshot for room alpha in the bucket. -/
def wSnap : World :=
  { wBound with bucket := [("rooms/alpha", Blob.json [7, 8])] }

/-- A concrete hydrated engine for room alpha. -/
def roomA : TLSocketRoom :=
  { uid := 0, initialSnapshot := some [7, 8], docs := [7, 8], sessions := [] }

/-- The bound instance after hydration from the stored snapshot. -/
def wWarm : World :=
  { wSnap with roomPromise := some (Except.ok roomA), r2GetCount := 1, nextUid := 1 }

/-!
Helper lemmas about getRoom and handleConnect, shared by the claim
theorems below.
-/

theorem optStrFalsy_none : optStrFalsy none = true := rfl

theorem optStrFalsy_some_ne (r : String) (hr : r ≠ "") :
    optStrFalsy (some r) = false := by
  simp [optStrFalsy, hr]

theorem getRoom_roomId (w : World) : (getRoom w).1.roomId = w.roomId := by
  unfold getRoom
  split
  · rfl
  · split
    · rfl
    · split
      · rfl
      · rfl

theorem getRoom_memoized (w : World) (r : String) (res : Except String TLSocketRoom)
    (hid : w.roomId = some r) (hr : r ≠ "") (hp : w.roomPromise = some res) :
    getRoom w = (w, res) := by
  simp [getRoom, hid, hr, hp]

theorem getRoom_cold (w : World) (r : String)
    (hid : w.roomId = some r) (hr : r ≠ "") (hp : w.roomPromise = none) :
    getRoom w =
      ({ w with
          roomPromise := some (hydrate w r)
          r2GetCount := w.r2GetCount + 1
          nextUid := w.nextUid + 1 }, hydrate w r) := by
  simp [getRoom, hid, hr, hp]

theorem getRoomN_memoized (n : Nat) (w : World) (r : String)
    (res : Except String TLSocketRoom)
    (hid : w.roomId = some r) (hr : r ≠ "") (hp : w.roomPromise = some res) :
    getRoomN n w = (w, List.replicate n res) := by
  induction n with
  | zero => simp [getRoomN]
  | succ n ih =>
      simp [getRoomN, getRoom_memoized w r res hid hr hp, ih, List.replicate]

theorem handleConnect_roomId (w : World) (q : Option String) :
    (handleConnect w q).1.roomId = w.roomId := by
  unfold handleConnect
  by_cases hq : optStrFalsy q
  · simp [hq]
  · simp only [hq, Bool.false_eq_true, if_false]
    split
    next w2 room heq =>
        have h1 := getRoom_roomId { w with pairsMade := w.pairsMade + 1 }
        rw [heq] at h1
        simpa using h1
    next w2 e heq =>
        have h1 := getRoom_roomId { w with pairsMade := w.pairsMade + 1 }
        rw [heq] at h1
        simpa using h1

theorem persist_warm_ok (w : World) (r : String) (room : TLSocketRoom)
    (hid : w.roomId = some r) (hr : r ≠ "")
    (hp : w.roomPromise = some (Except.ok room)) :
    persistToR2Body w true =
      { w with bucket := putKey w.bucket (roomKey r) (Blob.json room.getCurrentSnapshot) } := by
  unfold persistToR2Body
  rw [getRoom_memoized w r (Except.ok room) hid hr hp]
  simp [hp, hid, optStrFalsy, hr]

theorem persist_warm_fail (w : World) (r : String) (room : TLSocketRoom)
    (hid : w.roomId = some r) (hr : r ≠ "")
    (hp : w.roomPromise = some (Except.ok room)) :
    persistToR2Body w false = { w with rejectedRuns := w.rejectedRuns + 1 } := by
  unfold persistToR2Body
  rw [getRoom_memoized w r (Except.ok room) hid hr hp]
  simp [hp, hid, optStrFalsy, hr]

/-!
Claim theorems.
-/

/-- C1: hydration is single-flight and memoized.  On a bound instance
whose room promise is still null, any positive number of getRoom calls
issues exactly one SnapshotStore read over the instance lifetime, and
every caller receives the same memoized result, hence the same engine
instance. -/
theorem single_flight_hydration (w : World) (r : String) (n : Nat)
    (hid : w.roomId = some r) (hr : r ≠ "") (hp : w.roomPromise = none) :
    (getRoomN (n + 1) w).1.r2GetCount = w.r2GetCount + 1 ∧
    ∃ res, (getRoomN (n + 1) w).1.roomPromise = some res ∧
      (getRoomN (n + 1) w).2 = List.replicate (n + 1) res := by
  have hc := getRoom_cold w r hid hr hp
  have hmem := getRoomN_memoized n
      { w with
          roomPromise := some (hydrate w r)
          r2GetCount := w.r2GetCount + 1
          nextUid := w.nextUid + 1 }
      r (hydrate w r) hid hr rfl
  refine ⟨?_, hydrate w r, ?_, ?_⟩ <;>
    simp [getRoomN, hc, hmem, List.replicate]

/-- C1 witness: three callers on the bound cold instance with a stored
snapshot issue one read and all receive the same result. -/
theorem single_flight_hydration_witness :
    (getRoomN 3 wSnap).1.r2GetCount = wSnap.r2GetCount + 1 ∧
    ∃ res, (getRoomN 3 wSnap).1.roomPromise = some res ∧
      (getRoomN 3 wSnap).2 = List.replicate 3 res :=
  single_flight_hydration wSnap "alpha" 2 rfl (by decide) rfl

/-- C2: a bound identity is immutable: a connect request carrying any
candidate room id behaves exactly as one carrying the bound id (so no
error is raised for a mismatch), and the instance stays bound to the
original identity. -/
theorem bound_identity_wins (w : World) (r c : String) (q : Option String)
    (hid : w.roomId = some r) (hr : r ≠ "") :
    connectRoute w c q = connectRoute w r q ∧
    (connectRoute w c q).1.roomId = some r := by
  have hfalse : optStrFalsy w.roomId = false := by
    rw [hid]; exact optStrFalsy_some_ne r hr
  constructor
  · simp [connectRoute, hfalse]
  · simp only [connectRoute, hfalse, Bool.false_eq_true, if_false]
    rw [handleConnect_roomId, hid]

/-- C2 witness: on the instance bound to alpha, a request for room beta
is served identically to a request for alpha and alpha stays bound. -/
theorem bound_identity_wins_witness :
    connectRoute wBound "beta" (some "s1") = connectRoute wBound "alpha" (some "s1") ∧
    (connectRoute wBound "beta" (some "s1")).1.roomId = some "alpha" :=
  bound_identity_wins wBound "alpha" "beta" (some "s1") rfl (by decide)

/-- C4: an admission request with an empty or absent sessionId fails
with 400 Missing sessionId; no protocol upgrade is performed and no
socket pair or channel is created, the state being untouched. -/
theorem admission_missing_sessionId (w : World) (q : Option String)
    (hq : optStrFalsy q = true) :
    handleConnect w q = (w, Response.httpError 400 "Missing sessionId") := by
  simp [handleConnect, hq]

/-- C4 witness: the absent sessionId case on the bound instance. -/
theorem admission_missing_sessionId_witness :
    handleConnect wBound none = (wBound, Response.httpError 400 "Missing sessionId") :=
  admission_missing_sessionId wBound none rfl

/-- C5 counterexample: on a fresh unbound instance a connect request for
room alpha without a sessionId is rejected with 400, yet the instance
does not stay unbound: alpha is bound in memory and persisted to
durable local storage by the route before the sessionId check. -/
theorem rejected_connect_still_binds :
    (connectRoute wUnbound "alpha" none).2 = Response.httpError 400 "Missing sessionId" ∧
    (connectRoute wUnbound "alpha" none).1.roomId = some "alpha" ∧
    getKey (connectRoute wUnbound "alpha" none).1.storage "roomId" = some "alpha" := by
  decide

/-- C5 amended: a connect request with a falsy sessionId on an unbound
instance first binds the candidate identity in memory and durable local
storage and is then rejected with 400 Missing sessionId; apart from that
binding nothing changes: no socket pair, no hydration, no SnapshotStore
access. -/
theorem rejected_connect_binds_only (w : World) (c : String) (q : Option String)
    (hw : w.roomId = none) (hq : optStrFalsy q = true) :
    connectRoute w c q =
      ({ w with
          roomId := some c
          storage := putKey w.storage "roomId" c },
        Response.httpError 400 "Missing sessionId") := by
  simp [connectRoute, hw, handleConnect, hq, optStrFalsy_none]

/-- C5 amended witness: the concrete unbound instance and room alpha. -/
theorem rejected_connect_binds_only_witness :
    connectRoute wUnbound "alpha" none =
      ({ wUnbound with
          roomId := some "alpha"
          storage := putKey wUnbound.storage "roomId" "alpha" },
        Response.httpError 400 "Missing sessionId") :=
  rejected_connect_binds_only wUnbound "alpha" none rfl rfl

/-- C6: the first getRoom call performs exactly one hydration sequence:
one SnapshotStore read of the room key; an absent snapshot yields an
engine with no initial state, a present snapshot supplies its parsed
content as the initial state. -/
theorem first_hydration (w : World) (r : String)
    (hid : w.roomId = some r) (hr : r ≠ "") (hp : w.roomPromise = none) :
    (getRoom w).1.r2GetCount = w.r2GetCount + 1 ∧
    (getKey w.bucket (roomKey r) = none →
      (getRoom w).2 =
        Except.ok { uid := w.nextUid, initialSnapshot := none, docs := [], sessions := [] }) ∧
    (∀ s, getKey w.bucket (roomKey r) = some (Blob.json s) →
      (getRoom w).2 =
        Except.ok { uid := w.nextUid, initialSnapshot := some s, docs := s, sessions := [] }) := by
  rw [getRoom_cold w r hid hr hp]
  refine ⟨rfl, ?_, ?_⟩
  · intro habs; simp [hydrate, habs]
  · intro s hpres; simp [hydrate, hpres]

/-- C6 witness: hydration of the instance bound to alpha with a stored
snapshot present at rooms/alpha. -/
theorem first_hydration_witness :
    (getRoom wSnap).1.r2GetCount = wSnap.r2GetCount + 1 ∧
    (getKey wSnap.bucket (roomKey "alpha") = none →
      (getRoom wSnap).2 =
        Except.ok { uid := wSnap.nextUid, initialSnapshot := none, docs := [], sessions := [] }) ∧
    (∀ s, getKey wSnap.bucket (roomKey "alpha") = some (Blob.json s) →
      (getRoom wSnap).2 =
        Except.ok { uid := wSnap.nextUid, initialSnapshot := some s, docs := s, sessions := [] }) :=
  first_hydration wSnap "alpha" rfl (by decide) rfl

/-- C7: a persistence run on a warm instance serializes the full current
engine state and writes it to the SnapshotStore under rooms/ followed by
the bound room id, touching nothing else. -/
theorem persist_full_state (w : World) (r : String) (room : TLSocketRoom)
    (hid : w.roomId = some r) (hr : r ≠ "")
    (hp : w.roomPromise = some (Except.ok room)) :
    persistToR2Body w true =
      { w with bucket := putKey w.bucket (roomKey r) (Blob.json room.getCurrentSnapshot) } :=
  persist_warm_ok w r room hid hr hp

/-- C7 witness: the warm instance for room alpha writes its snapshot to
rooms/alpha. -/
theorem persist_full_state_witness :
    persistToR2Body wWarm true =
      { wWarm with
          bucket := putKey wWarm.bucket (roomKey "alpha") (Blob.json roomA.getCurrentSnapshot) } :=
  persist_full_state wWarm "alpha" roomA rfl (by decide) rfl

/-- C8: a failed SnapshotStore write during a persistence run only
leaves a rejected run promise, recorded (logged) by the hosting runtime,
which is outside this repository and modelled from the spec by the
rejectedRuns counter; no response reaches any client, every other field
is unchanged, and the next run attempts the write again and, succeeding,
persists the full state. -/
theorem persist_failure_contained (w : World) (r : String) (room : TLSocketRoom)
    (hid : w.roomId = some r) (hr : r ≠ "")
    (hp : w.roomPromise = some (Except.ok room)) :
    persistToR2Body w false = { w with rejectedRuns := w.rejectedRuns + 1 } ∧
    persistToR2Body (persistToR2Body w false) true =
      { w with
          rejectedRuns := w.rejectedRuns + 1
          bucket := putKey w.bucket (roomKey r) (Blob.json room.getCurrentSnapshot) } := by
  have h1 := persist_warm_fail w r room hid hr hp
  refine ⟨h1, ?_⟩
  rw [h1]
  exact persist_warm_ok _ r room hid hr hp

/-- C8 witness: the warm instance for room alpha under one failing and
then one succeeding write. -/
theorem persist_failure_contained_witness :
    persistToR2Body wWarm false = { wWarm with rejectedRuns := wWarm.rejectedRuns + 1 } ∧
    persistToR2Body (persistToR2Body wWarm false) true =
      { wWarm with
          rejectedRuns := wWarm.rejectedRuns + 1
          bucket := putKey wWarm.bucket (roomKey "alpha") (Blob.json roomA.getCurrentSnapshot) } :=
  persist_failure_contained wWarm "alpha" roomA rfl (by decide) rfl

/-- C9: the error-reporting endpoint answers 200 OK exactly when the
body parses as JSON and 500 exactly when it is malformed, and in both
cases nothing but the console log changes, so the outcome reaches no
other component. -/
theorem log_error_route_contract (w : World) (body : ReqBody) :
    ((logErrorRoute w body).2 = Response.plain 200 "OK" ↔ ∃ p, body = ReqBody.json p) ∧
    ((logErrorRoute w body).2 = Response.plain 500 "Error" ↔ body = ReqBody.malformed) ∧
    (logErrorRoute w body).1 = { w with log := (logErrorRoute w body).1.log } := by
  cases body with
  | json p => refine ⟨?_, ?_, rfl⟩ <;> simp [logErrorRoute]
  | malformed => refine ⟨?_, ?_, rfl⟩ <;> simp [logErrorRoute]

/-- C10: a persistence run with no bound identity or a null room promise
returns immediately: no SnapshotStore write, no error, state unchanged,
and in particular no write to a key built from a missing identity. -/
theorem persist_cold_noop (w : World) (putOk : Bool)
    (h : w.roomPromise = none ∨ w.roomId = none) :
    persistToR2Body w putOk = w := by
  rcases h with h | h
  · simp [persistToR2Body, h]
  · simp [persistToR2Body, h, optStrFalsy]

/-- C10 witness: the fresh unbound instance. -/
theorem persist_cold_noop_witness : persistToR2Body wUnbound true = wUnbound :=
  persist_cold_noop wUnbound true (Or.inl rfl)

/-!
Lemmas for the persistence scheduler (claim C3).
-/

theorem flushTo_docs (T t : Nat) (st : ThrottleState) :
    (flushTo T t st).docs = st.docs := by
  unfold flushTo
  split <;> try rfl
  split <;> try rfl
  split <;> try rfl
  split <;> rfl

theorem onDirty_docs (T : Nat) (st : ThrottleState) (t m : Nat) :
    (onDirty T st t m).docs = st.docs ++ [m] := by
  unfold onDirty
  rcases h : (flushTo T t st).windowEnd with _ | e <;> simp [h, flushTo_docs]

theorem foldDirty_docs (T : Nat) (events : List (Nat × Nat)) :
    ∀ st : ThrottleState,
      (events.foldl (fun st ev => onDirty T st ev.1 ev.2) st).docs =
        st.docs ++ events.map Prod.snd := by
  induction events with
  | nil => intro st; simp
  | cons e es ih =>
      intro st
      simp [List.foldl_cons, ih, onDirty_docs]

theorem gaps_append (T : Nat) (ws : List (Nat × List Nat)) (y : Nat × List Nat)
    (hc : List.Chain' (fun a b : Nat × List Nat => a.1 + T ≤ b.1) ws)
    (hlast : ∀ x, ws.getLast? = some x → x.1 + T ≤ y.1) :
    List.Chain' (fun a b : Nat × List Nat => a.1 + T ≤ b.1) (ws ++ [y]) := by
  rw [List.chain'_append]
  refine ⟨hc, List.chain'_singleton y, ?_⟩
  intro x hx z hz
  simp only [List.head?_cons, Option.mem_def, Option.some.injEq] at hz
  subst hz
  exact hlast x hx

theorem flushTo_inv (T now t k : Nat) (st : ThrottleState)
    (hnt : now ≤ t) (hinv : ThrInv T now k st) :
    ThrInv T t k (flushTo T t st) := by
  obtain ⟨hgaps, hcount, hidle, hopen, hclean, hpend⟩ := hinv
  rcases hw : st.windowEnd with _ | e
  · have hfl : flushTo T t st = st := by simp [flushTo, hw]
    rw [hfl]
    refine ⟨hgaps, hcount, ?_, ?_, hclean, hpend⟩
    · intro _
      rcases hidle hw with h | ⟨x, hx, hxt⟩
      · exact Or.inl h
      · exact Or.inr ⟨x, hx, le_trans hxt hnt⟩
    · intro e2 he2
      rw [hw] at he2
      simp at he2
  · by_cases het : e ≤ t
    · by_cases hpd : st.pending
      · by_cases hetT : e + T ≤ t
        · have hfl : flushTo T t st =
              { st with
                  writes := st.writes ++ [(e, st.docs)]
                  windowEnd := none
                  pending := false } := by
            simp [flushTo, hw, het, hpd, hetT]
          rw [hfl]
          refine ⟨?_, ?_, ?_, ?_, ?_, ?_⟩
          · apply gaps_append T _ _ hgaps
            intro x hx
            obtain ⟨-, y, hy, hey⟩ := hopen e hw
            rw [hx] at hy
            injection hy with hy
            subst hy
            exact le_of_eq hey.symm
          · simp [hpd] at hcount ⊢
            omega
          · intro _
            exact Or.inr ⟨(e, st.docs), List.getLast?_concat _, hetT⟩
          · intro e2 he2
            simp at he2
          · intro _
            exact Or.inr ⟨(e, st.docs), List.getLast?_concat _, rfl⟩
          · intro h
            simp at h
        · have hfl : flushTo T t st =
              { st with
                  writes := st.writes ++ [(e, st.docs)]
                  windowEnd := some (e + T)
                  pending := false } := by
            simp [flushTo, hw, het, hpd, hetT]
          rw [hfl]
          refine ⟨?_, ?_, ?_, ?_, ?_, ?_⟩
          · apply gaps_append T _ _ hgaps
            intro x hx
            obtain ⟨-, y, hy, hey⟩ := hopen e hw
            rw [hx] at hy
            injection hy with hy
            subst hy
            exact le_of_eq hey.symm
          · simp [hpd] at hcount ⊢
            omega
          · intro h
            simp at h
          · intro e2 he2
            simp only [Option.some.injEq] at he2
            subst he2
            exact ⟨Nat.lt_of_not_le hetT,
              (e, st.docs), List.getLast?_concat _, rfl⟩
          · intro _
            exact Or.inr ⟨(e, st.docs), List.getLast?_concat _, rfl⟩
          · intro h
            simp at h
      · have hfl : flushTo T t st = { st with windowEnd := none } := by
          simp [flushTo, hw, het, hpd]
        rw [hfl]
        refine ⟨hgaps, hcount, ?_, ?_, hclean, ?_⟩
        · intro _
          obtain ⟨-, x, hx, hex⟩ := hopen e hw
          exact Or.inr ⟨x, hx, by rw [← hex]; exact het⟩
        · intro e2 he2
          simp at he2
        · intro h
          exact absurd h hpd
    · have hfl : flushTo T t st = st := by
        simp [flushTo, hw, het]
      rw [hfl]
      refine ⟨hgaps, hcount, ?_, ?_, hclean, hpend⟩
      · intro hnone
        rw [hw] at hnone
        simp at hnone
      · intro e2 he2
        rw [hw] at he2
        injection he2 with he2
        subst he2
        obtain ⟨-, x, hx, hex⟩ := hopen e hw
        exact ⟨Nat.lt_of_not_le het, x, hx, hex⟩

theorem onDirty_inv (T now t k m : Nat) (st : ThrottleState) (hT : 0 < T)
    (hnt : now ≤ t) (hinv : ThrInv T now k st) :
    ThrInv T t (k + 1) (onDirty T st t m) := by
  obtain ⟨hgaps, hcount, hidle, hopen, hclean, hpend⟩ :=
    flushTo_inv T now t k st hnt hinv
  rcases hw : (flushTo T t st).windowEnd with _ | e
  · have hpd : (flushTo T t st).pending = false := by
      cases hp2 : (flushTo T t st).pending
      · rfl
      · have h2 := hpend hp2
        rw [hw] at h2
        simp at h2
    have hod : onDirty T st t m =
        { flushTo T t st with
            docs := (flushTo T t st).docs ++ [m]
            writes := (flushTo T t st).writes ++ [(t, (flushTo T t st).docs ++ [m])]
            windowEnd := some (t + T) } := by
      simp [onDirty, hw]
    rw [hod]
    refine ⟨?_, ?_, ?_, ?_, ?_, ?_⟩
    · apply gaps_append T _ _ hgaps
      intro x hx
      rcases hidle hw with hnil | ⟨y, hy, hyt⟩
      · rw [hnil] at hx
        simp at hx
      · rw [hx] at hy
        injection hy with hy
        subst hy
        exact hyt
    · simp [hpd] at hcount ⊢
      omega
    · intro h
      simp at h
    · intro e2 he2
      simp only [Option.some.injEq] at he2
      subst he2
      exact ⟨Nat.lt_add_of_pos_right hT,
        (t, (flushTo T t st).docs ++ [m]), List.getLast?_concat _, rfl⟩
    · intro _
      exact Or.inr ⟨(t, (flushTo T t st).docs ++ [m]), List.getLast?_concat _, rfl⟩
    · intro h
      rw [hpd] at h
      simp at h
  · have hod : onDirty T st t m =
        { flushTo T t st with
            docs := (flushTo T t st).docs ++ [m]
            pending := true } := by
      simp [onDirty, hw]
    rw [hod]
    refine ⟨hgaps, ?_, ?_, ?_, ?_, ?_⟩
    · have h2 : (flushTo T t st).writes.length ≤ k :=
        le_trans (Nat.le_add_right _ _) hcount
      simp
      omega
    · intro h
      rw [hw] at h
      simp at h
    · intro e2 he2
      exact hopen e2 he2
    · intro h
      simp at h
    · intro _
      rw [hw]
      rfl

theorem foldDirty_inv (T : Nat) (hT : 0 < T) :
    ∀ (events : List (Nat × Nat)) (now k : Nat) (st : ThrottleState),
      ThrInv T now k st →
      List.Chain' (fun a b : Nat × Nat => a.1 ≤ b.1) ((now, 0) :: events) →
      ∃ mend, ThrInv T mend (k + events.length)
        (events.foldl (fun st ev => onDirty T st ev.1 ev.2) st) := by
  intro events
  induction events with
  | nil =>
      intro now k st hinv _
      exact ⟨now, by simpa using hinv⟩
  | cons e es ih =>
      intro now k st hinv hchain
      rw [List.chain'_cons] at hchain
      obtain ⟨hle, hchain2⟩ := hchain
      have h2 := onDirty_inv T now e.1 k e.2 st hT hle hinv
      have hchain3 : List.Chain' (fun a b : Nat × Nat => a.1 ≤ b.1) ((e.1, 0) :: es) := by
        rw [List.chain'_cons'] at hchain2 ⊢
        exact hchain2
      obtain ⟨mend, hm⟩ := ih e.1 (k + 1) _ h2 hchain3
      refine ⟨mend, ?_⟩
      have hlen : k + (e :: es).length = k + 1 + es.length := by
        simp [List.length_cons]
        omega
      rw [hlen]
      simpa using hm

theorem finishThrottle_inv (T now k : Nat) (st : ThrottleState)
    (hinv : ThrInv T now k st) :
    List.Chain' (fun a b : Nat × List Nat => a.1 + T ≤ b.1) (finishThrottle st).writes ∧
    (finishThrottle st).writes.length ≤ k ∧
    (((finishThrottle st).writes = [] ∧ st.docs = []) ∨
      ∃ x, (finishThrottle st).writes.getLast? = some x ∧ x.2 = st.docs) := by
  obtain ⟨hgaps, hcount, hidle, hopen, hclean, hpend⟩ := hinv
  rcases hw : st.windowEnd with _ | e
  · have hpd : st.pending = false := by
      cases hp2 : st.pending
      · rfl
      · have h2 := hpend hp2
        rw [hw] at h2
        simp at h2
    have hfl : finishThrottle st = st := by simp [finishThrottle, hw]
    rw [hfl]
    refine ⟨hgaps, ?_, ?_⟩
    · simp [hpd] at hcount
      exact hcount
    · exact hclean hpd
  · by_cases hpd : st.pending
    · have hfl : finishThrottle st =
          { st with
              writes := st.writes ++ [(e, st.docs)]
              windowEnd := none
              pending := false } := by
        simp [finishThrottle, hw, hpd]
      rw [hfl]
      refine ⟨?_, ?_, ?_⟩
      · apply gaps_append T _ _ hgaps
        intro x hx
        obtain ⟨-, y, hy, hey⟩ := hopen e hw
        rw [hx] at hy
        injection hy with hy
        subst hy
        exact le_of_eq hey.symm
      · simp [hpd] at hcount ⊢
        omega
      · exact Or.inr ⟨(e, st.docs), List.getLast?_concat _, rfl⟩
    · have hfl : finishThrottle st = { st with windowEnd := none } := by
        simp [finishThrottle, hw, hpd]
      rw [hfl]
      refine ⟨hgaps, ?_, ?_⟩
      · simp [hpd] at hcount
        exact hcount
      · simpa using hclean (by simpa using hpd)

/-- C3: throttled, coalescing, trailing-correct persistence.  For every
time-ordered trace of dirty signals, the schedule produced by the
modelled lodash.throttle discipline (the source uses interval
T = 10 seconds) performs writes whose times climb by at least T (at most
one write per interval), never performs more writes than there were
dirty signals (each coalesces into a leading or single trailing run),
and its final trailing write serializes the state after all K
mutations. -/
theorem throttled_persistence (T : Nat) (events : List (Nat × Nat)) (hT : 0 < T)
    (hsorted : List.Chain' (fun a b : Nat × Nat => a.1 ≤ b.1) events) :
    List.Chain' (fun a b : Nat × List Nat => a.1 + T ≤ b.1) (runThrottle T events).writes ∧
    (runThrottle T events).writes.length ≤ events.length ∧
    (events ≠ [] →
      ∃ x, (runThrottle T events).writes.getLast? = some x ∧
        x.2 = events.map Prod.snd) := by
  have hinit : ThrInv T 0 0 throttleInit := by
    refine ⟨List.chain'_nil, by simp [throttleInit], fun _ => Or.inl rfl, ?_, ?_, ?_⟩
    · intro e he
      simp [throttleInit] at he
    · intro _
      exact Or.inl ⟨rfl, rfl⟩
    · intro h
      simp [throttleInit] at h
  have hchain0 : List.Chain' (fun a b : Nat × Nat => a.1 ≤ b.1) ((0, 0) :: events) := by
    rw [List.chain'_cons']
    exact ⟨fun h _ => Nat.zero_le _, hsorted⟩
  obtain ⟨mend, hm⟩ := foldDirty_inv T hT events 0 0 throttleInit hinit hchain0
  have hdocs :
      (events.foldl (fun st ev => onDirty T st ev.1 ev.2) throttleInit).docs =
        events.map Prod.snd := by
    simpa [throttleInit] using foldDirty_docs T events throttleInit
  have hfin := finishThrottle_inv T mend (0 + events.length) _ hm
  unfold runThrottle
  refine ⟨hfin.1, by simpa using hfin.2.1, ?_⟩
  intro hne
  rcases hfin.2.2 with ⟨-, hd⟩ | ⟨x, hx, hxd⟩
  · rw [hdocs] at hd
    exact absurd (List.map_eq_nil_iff.mp hd) hne
  · exact ⟨x, hx, by rw [hxd, hdocs]⟩

/-- C3 witness: interval 10, a burst of three mutations at times 0, 3
and 5; the schedule is a leading write at 0 and one trailing write at 10
carrying all three mutations. -/
theorem throttled_persistence_witness :
    List.Chain' (fun a b : Nat × List Nat => a.1 + 10 ≤ b.1)
      (runThrottle 10 [(0, 1), (3, 2), (5, 3)]).writes ∧
    (runThrottle 10 [(0, 1), (3, 2), (5, 3)]).writes.length ≤
      [(0, 1), (3, 2), (5, 3)].length ∧
    (([(0, 1), (3, 2), (5, 3)] : List (Nat × Nat)) ≠ [] →
      ∃ x, (runThrottle 10 [(0, 1), (3, 2), (5, 3)]).writes.getLast? = some x ∧
        x.2 = ([(0, 1), (3, 2), (5, 3)] : List (Nat × Nat)).map Prod.snd) :=
  throttled_persistence 10 [(0, 1), (3, 2), (5, 3)] (by decide)
    (by norm_num [List.chain'_cons, List.chain'_singleton])
